import Mathlib

/-!
Verification of the EZ-Pass statement parser (src/main.py) against its
natural-language specification.

The Python line-parsing core is shallowly embedded below.  All string
primitives the Python code relies on (`str.split()`, `str.strip()`,
`str.splitlines()`, `" ".join`, negative indexing, slicing with a negative
stop) are modelled explicitly on `List Char` / `List String` so that every
definition is executable and kernel-reducible.  Python floats are modelled
exactly: the values arising here are decimal, so finite floats are carried
as rationals, with explicit constructors for the infinities and NaN that
Python's `float()` also accepts.
-/

/-! ## Character and string primitives -/

/-- ASCII decimal digit, the character class used by the script's regexes
(`\d`) and by `str.isdigit` on the statement tokens. -/
def isDig (c : Char) : Bool := 48 ≤ c.toNat && c.toNat ≤ 57

/-- Numeric value of an ASCII digit character. -/
def digitVal (c : Char) : Nat := c.toNat - 48

/-- Decimal value of a digit list, most significant first. -/
def natOfDigits (ds : List Char) : Nat := ds.foldl (fun a c => a * 10 + digitVal c) 0

/-- Python `str.isdigit()`: non-empty and all digits. -/
def isDigits (s : String) : Bool := !s.data.isEmpty && s.data.all isDig

/-- Regex `DATE_RE = ^\d{2}/\d{2}/\d{2}$` (src/main.py line 60), as a whole-string
match on the eight characters `dd/dd/dd`. -/
def dateRe (s : String) : Bool :=
  match s.data with
  | [a, b, c, d, e, f, g, h] =>
    isDig a && isDig b && c = '/' && isDig d && isDig e && f = '/' && isDig g && isDig h
  | _ => false

/-- Regex `TIME_RE = ^\d{2}:\d{2}$` (src/main.py line 61). -/
def timeRe (s : String) : Bool :=
  match s.data with
  | [a, b, c, d, e] => isDig a && isDig b && c = ':' && isDig d && isDig e
  | _ => false

/-- Whitespace-tokenizer accumulator for `str.split()` with no argument:
runs of whitespace separate tokens, leading/trailing whitespace ignored. -/
def pyWordsAux : List Char → List Char → List (List Char)
  | [], cur => if cur.isEmpty then [] else [cur.reverse]
  | c :: rest, cur =>
    if c.isWhitespace then
      if cur.isEmpty then pyWordsAux rest [] else cur.reverse :: pyWordsAux rest []
    else pyWordsAux rest (c :: cur)

/-- Python `line.split()` on a string. -/
def pySplit (s : String) : List String :=
  (pyWordsAux s.data []).map String.mk

/-- Strip whitespace from both ends of a character list (Python `str.strip()`,
also the stripping `float()` performs on its argument). -/
def pyStripWs (cs : List Char) : List Char :=
  ((cs.dropWhile Char.isWhitespace).reverse.dropWhile Char.isWhitespace).reverse

/-- Python `str.strip()` on strings. -/
def pyTrim (s : String) : String := String.mk (pyStripWs s.data)

/-- Accumulator for `str.splitlines()` (modelled as splitting at newline). -/
def splitLinesAux : List Char → List Char → List String
  | [], cur => [String.mk cur.reverse]
  | c :: rest, cur =>
    if c = '\n' then String.mk cur.reverse :: splitLinesAux rest []
    else splitLinesAux rest (c :: cur)

/-- Python `page_text.splitlines()`. -/
def pySplitLines (s : String) : List String := splitLinesAux s.data []

/-- Characters of `" ".join(ws)`. -/
def joinSpaceAux : List String → List Char
  | [] => []
  | [w] => w.data
  | w :: rest => w.data ++ ' ' :: joinSpaceAux rest

/-- Python join with a single space. -/
def joinSpace (ws : List String) : String := String.mk (joinSpaceAux ws)

/-- Python slice form `ts[a:-b]`: drop `a` from the front and `b` from the back. -/
def pySlice (ts : List String) (a b : Nat) : List String :=
  (ts.take (ts.length - b)).drop a

/-! ## Data model: one parsed transaction line -/

/-- The unified output schema built by `empty_row()` inside
`parse_transaction_line` (src/main.py lines 292-310); every field defaults
to `None`. -/
structure TransactionRecord where
  lane_txn_id : Option String := none
  posting_date : Option String := none
  transaction_date : Option String := none
  tag_or_plate : Option String := none
  agency : Option String := none
  plaza : Option String := none
  entry_date : Option String := none
  entry_time : Option String := none
  exit_plaza : Option String := none
  exit_date : Option String := none
  exit_time : Option String := none
  plan : Option String := none
  vehicle_class : Option String := none
  amount : Option String := none
  balance : Option String := none
  description : Option String := none
deriving DecidableEq

/-- Row returned by `empty_row()`: every field `None`. -/
def empty_row : TransactionRecord := {}

/-! ## The line parser (`parse_transaction_line`, src/main.py lines 256-430) -/

/-- Exit-segment handling shared verbatim by the lane and double-date
branches (src/main.py lines 358-364 and 408-413): first token of `rest` is
`exit_plaza`; a second token that matches the date pattern is `exit_date`;
a third token that matches the time pattern is `exit_time`. -/
def applyExit (row : TransactionRecord) (rest : List String) : TransactionRecord :=
  match rest with
  | [] => row
  | r0 :: rtail =>
    let row1 := { row with exit_plaza := some r0 }
    let row2 :=
      match rtail with
      | r1 :: _ => if dateRe r1 then { row1 with exit_date := some r1 } else row1
      | [] => row1
    match rtail with
    | _ :: r2 :: _ => if timeRe r2 then { row2 with exit_time := some r2 } else row2
    | _ => row2

/-- Middle-segment handling shared verbatim by the lane and double-date
branches (src/main.py lines 348-364 and 399-413): if the first middle token
matches the date pattern it is `entry_date` (and a following time token is
`entry_time`) and the rest is `middle[2:]`; otherwise the whole middle
segment is the rest. -/
def applyMiddle (row : TransactionRecord) (middle : List String) : TransactionRecord :=
  match middle with
  | [] => row
  | m0 :: mtail =>
    if dateRe m0 then
      let row1 := { row with entry_date := some m0 }
      let row2 :=
        match mtail with
        | m1 :: _ => if timeRe m1 then { row1 with entry_time := some m1 } else row1
        | [] => row1
      applyExit row2 (mtail.drop 1)
    else
      applyExit row (m0 :: mtail)

/-- FORMAT B branch (src/main.py lines 321-368): lane txn id, then date. -/
def parseLane (tokens : List String) : TransactionRecord :=
  let amount := tokens.getD (tokens.length - 2) ""
  let balance := tokens.getD (tokens.length - 1) ""
  let row := { empty_row with
    lane_txn_id := some (tokens.getD 0 ""),
    posting_date := some (tokens.getD 1 "") }
  if tokens.length < 9 then
    { row with
      amount := some amount, balance := some balance,
      description := if 4 < tokens.length then some (joinSpace (pySlice tokens 2 2)) else none }
  else
    let row := { row with
      tag_or_plate := some (tokens.getD 2 ""),
      agency := if 3 < tokens.length then some (tokens.getD 3 "") else none,
      plaza := if 4 < tokens.length then some (tokens.getD 4 "") else none }
    let row :=
      if 6 ≤ tokens.length then
        { row with
          plan := if 6 ≤ tokens.length then some (tokens.getD (tokens.length - 4) "") else none,
          vehicle_class := if 5 ≤ tokens.length then some (tokens.getD (tokens.length - 3) "") else none }
      else row
    let row := applyMiddle row (pySlice tokens 5 4)
    { row with amount := some amount, balance := some balance }

/-- FORMAT A branch (src/main.py lines 373-417): two dates at the start. -/
def parseOld (tokens : List String) : TransactionRecord :=
  let amount := tokens.getD (tokens.length - 2) ""
  let balance := tokens.getD (tokens.length - 1) ""
  let row := { empty_row with
    posting_date := some (tokens.getD 0 ""),
    transaction_date := some (tokens.getD 1 ""),
    tag_or_plate := if 2 < tokens.length then some (tokens.getD 2 "") else none }
  if tokens.length ≤ 6 then
    { row with
      description := some (joinSpace (pySlice tokens 2 2)),
      amount := some amount, balance := some balance }
  else
    let row := { row with
      agency := if 3 < tokens.length then some (tokens.getD 3 "") else none,
      plaza := if 4 < tokens.length then some (tokens.getD 4 "") else none,
      plan := if 6 ≤ tokens.length then some (tokens.getD (tokens.length - 4) "") else none,
      vehicle_class := if 5 ≤ tokens.length then some (tokens.getD (tokens.length - 3) "") else none }
    let row := applyMiddle row (pySlice tokens 5 4)
    { row with amount := some amount, balance := some balance }

/-- Fee/payment branch (src/main.py lines 422-428): one date at the start. -/
def parseFee (tokens : List String) : TransactionRecord :=
  let amount := tokens.getD (tokens.length - 2) ""
  let balance := tokens.getD (tokens.length - 1) ""
  { empty_row with
    posting_date := some (tokens.getD 0 ""),
    description := if 3 < tokens.length then some (joinSpace (pySlice tokens 1 2)) else none,
    amount := some amount, balance := some balance }

/-- Classifier dispatch of `parse_transaction_line` over the token list
(src/main.py lines 285-287, 321, 373, 422, 430). -/
def parseTokens (tokens : List String) : Option TransactionRecord :=
  if tokens.length < 4 then none
  else if isDigits (tokens.getD 0 "") && dateRe (tokens.getD 1 "") then
    some (parseLane tokens)
  else if dateRe (tokens.getD 0 "") && (decide (1 < tokens.length) && dateRe (tokens.getD 1 "")) then
    some (parseOld tokens)
  else if dateRe (tokens.getD 0 "") then
    some (parseFee tokens)
  else none

/-- Top-level `parse_transaction_line(line)` (src/main.py lines 256-430). -/
def parse_transaction_line_func (line : String) : Option TransactionRecord :=
  parseTokens (pySplit line)

/-! ## Line selection (`iter_transaction_lines`, src/main.py lines 207-251) -/

/-- Per-line body of the selection loop: strip, discard empty and
fewer-than-4-token lines, accept `(digits date ...)` or `(date ...)`. -/
def iterBody (ln : String) : Option String :=
  let line := pyTrim ln
  if line = "" then none
  else
    let toks := pySplit line
    if toks.length < 4 then none
    else if isDigits (toks.getD 0 "") && (decide (1 < toks.length) && dateRe (toks.getD 1 "")) then
      some line
    else if dateRe (toks.getD 0 "") then some line
    else none

/-- Selection of candidate lines, `iter_transaction_lines(page_text)`. -/
def iter_transaction_lines_func (page_text : String) : List String :=
  (pySplitLines page_text).filterMap iterBody

/-! ## Python floats and `money_to_float` (src/main.py lines 435-463)

`float()` on a string accepts (after stripping surrounding whitespace) an
optional sign followed by either a case-insensitive `inf`/`infinity`/`nan`
or a decimal literal with optional fractional part, optional exponent, and
underscore digit-group separators.  The finite values arising from decimal
literals are exact here, so they are carried as rationals. -/

/-- Result of Python `float()`: a finite value, a signed infinity, or NaN. -/
inductive PyFloat where
  | finite : Rat → PyFloat
  | inf : Bool → PyFloat
  | nan : PyFloat
deriving DecidableEq

/-- Python unary minus on a float (`-amount`).  NaN stays NaN: the sign bit
of NaN is unobservable through the comparisons modelled here. -/
def pyNeg : PyFloat → PyFloat
  | .finite q => .finite (-q)
  | .inf b => .inf (!b)
  | .nan => .nan

/-- Test `v < 0` on a Python float value. -/
def PyFloat.isNeg : PyFloat → Bool
  | .finite q => decide (q < 0)
  | .inf b => b
  | .nan => false

/-- The float is a nonzero numeric value (not zero, not NaN). -/
def PyFloat.nonzeroNum : PyFloat → Bool
  | .finite q => decide (q ≠ 0)
  | .inf _ => true
  | .nan => false

/-- Digit run with optional single underscores between digits
(`\d(_?\d)*`), accumulating value and digit count. -/
def runValAux : List Char → Nat → Nat → Option (Nat × Nat)
  | [], v, n => some (v, n)
  | c :: rest, v, n =>
    if isDig c then runValAux rest (v * 10 + digitVal c) (n + 1)
    else if c = '_' then
      match rest with
      | c2 :: rest2 =>
        if isDig c2 then runValAux rest2 (v * 10 + digitVal c2) (n + 1) else none
      | [] => none
    else none

/-- Value and digit count of a digit run, `none` if the run is not of the
form `\d(_?\d)*`. -/
def runVal? (cs : List Char) : Option (Nat × Nat) :=
  match cs with
  | [] => none
  | c :: rest => if isDig c then runValAux rest (digitVal c) 1 else none

/-- Exponent part after `e`/`E`: optional sign, then a digit run. -/
def parseExp (cs : List Char) : Option Int :=
  match cs with
  | '+' :: rest => (runVal? rest).map (fun p => (p.1 : Int))
  | '-' :: rest => (runVal? rest).map (fun p => -(p.1 : Int))
  | _ => (runVal? cs).map (fun p => (p.1 : Int))

/-- Mantissa: `D`, `D.`, `D.D` or `.D` where `D` is a digit run. -/
def parseMantissa (cs : List Char) : Option Rat :=
  let ipart := cs.takeWhile (fun c => !(c == '.'))
  match cs.dropWhile (fun c => !(c == '.')) with
  | [] => (runVal? ipart).map (fun p => (p.1 : Rat))
  | _ :: fpart =>
    match runVal? ipart, runVal? fpart with
    | some p, some q => some ((p.1 : Rat) + (q.1 : Rat) / 10 ^ q.2)
    | some p, none => if fpart = [] then some ((p.1 : Rat)) else none
    | none, some q => if ipart = [] then some ((q.1 : Rat) / 10 ^ q.2) else none
    | none, none => none

/-- Unsigned numeric literal: mantissa with optional `e`/`E` exponent. -/
def isEe (c : Char) : Bool := c == 'e' || c == 'E'

/-- Parse the unsigned part of a float literal. -/
def parseNumeric (cs : List Char) : Option Rat :=
  match cs.dropWhile (fun c => !(isEe c)) with
  | [] => parseMantissa cs
  | _ :: expPart =>
    match parseMantissa (cs.takeWhile (fun c => !(isEe c))), parseExp expPart with
    | some m, some e => some (m * (10 : Rat) ^ e)
    | _, _ => none

/-- ASCII lowercasing, for the case-insensitive `inf`/`nan` spellings. -/
def lowerChar (c : Char) : Char :=
  if 65 ≤ c.toNat && c.toNat ≤ 90 then Char.ofNat (c.toNat + 32) else c

/-- Lowercase a character list. -/
def lowerList (cs : List Char) : List Char := cs.map lowerChar

/-- Float literal after the optional sign: `inf`/`infinity`/`nan`
(case-insensitive, hence the `nan` of a `-nan` spelling: the sign bit of
NaN is unobservable here) or a numeric literal, negated per the sign. -/
def parseSignedBody (neg : Bool) (body : List Char) : Option PyFloat :=
  if lowerList body = ['i', 'n', 'f'] ∨ lowerList body = ['i', 'n', 'f', 'i', 'n', 'i', 't', 'y'] then
    some (PyFloat.inf neg)
  else if lowerList body = ['n', 'a', 'n'] then some PyFloat.nan
  else (parseNumeric body).map (fun q => PyFloat.finite (if neg then -q else q))

/-- Signed float literal: optional sign, then the body. -/
def parseSigned (cs : List Char) : Option PyFloat :=
  match cs with
  | '+' :: rest => parseSignedBody false rest
  | '-' :: rest => parseSignedBody true rest
  | _ => parseSignedBody false cs

/-- Python `float(s)` on a character list: strip whitespace, then parse the
signed literal. -/
def pyFloatParse (cs : List Char) : Option PyFloat :=
  parseSigned (pyStripWs cs)

/-- Does a character list start with `'-'` (Python `value.startswith("-")`)? -/
def startsWithDash (cs : List Char) : Bool :=
  match cs with
  | '-' :: _ => true
  | _ => false

/-- Removal of characters, `value.replace("$", "").replace(",", "").replace("-", "")`. -/
def moneyStrip (cs : List Char) : List Char :=
  cs.filter (fun c => !(c == '$' || c == ',' || c == '-'))

/-- The characters remaining after `strip()` and removal of `$`, `,`, `-`
(the string handed to `float()` by `money_to_float`). -/
def moneyStripped (s : String) : List Char := moneyStrip (pyStripWs s.data)

/-- Conversion `money_to_float(value)` (src/main.py lines 435-463). -/
def money_to_float_func (value : String) : Option PyFloat :=
  if value.data = [] then none
  else
    let v := pyStripWs value.data
    let negative := startsWithDash v
    match pyFloatParse (moneyStrip v) with
    | some a => some (if negative then pyNeg a else a)
    | none => none

/-- Spec-side predicate, from the specification's words: the remaining
characters form a plain decimal numeral (digits with at most one decimal
point and at least one digit).  Used to compare the specified
null-condition of the Money Normalizer with the implementation. -/
def specValidDecimal (cs : List Char) : Bool :=
  cs.all (fun c => isDig c || c == '.') && decide (cs.count '.' ≤ 1) && cs.any isDig

/-! ## Document pipeline (`parse_pdf`, `parse_many`, src/main.py 133-202)

A document is modelled at the input boundary as its ordered list of page
texts.  A DataFrame row is a record together with the two derived numeric
columns `amount_num` and `balance_num`. -/

/-- One output row: the parsed record plus the numeric helper columns added
by `parse_pdf` (src/main.py lines 198-200). -/
structure OutRow where
  record : TransactionRecord
  amount_num : Option PyFloat
  balance_num : Option PyFloat
deriving DecidableEq

/-- Column-level `money_to_float` applied to a cell that may hold `None`
(`None` is falsy, so `if not value` returns `None` for it). -/
def moneyOptCol (v : Option String) : Option PyFloat :=
  match v with
  | none => none
  | some s => money_to_float_func s

/-- Per-document `parse_pdf(pdf_path)` on the document's page texts: select candidate
lines per page, parse each, keep the truthy rows in order, and add the
numeric helper columns.  (The `where(notna, None)` date normalization is
the identity on this representation, and on an empty row list adding the
numeric columns is also the identity.) -/
def parse_pdf_func (pages : List String) : List OutRow :=
  let rows := pages.flatMap
    (fun text => (iter_transaction_lines_func text).filterMap parse_transaction_line_func)
  rows.map (fun r => ⟨r, moneyOptCol r.amount, moneyOptCol r.balance⟩)

/-- Batch `parse_many(inputs)` (src/main.py lines 133-152): parse each document,
then concatenate the frames in order; no documents yields the empty frame. -/
def parse_many_func (docs : List (List String)) : List OutRow :=
  let frames := docs.map parse_pdf_func
  match frames with
  | [] => []
  | _ => frames.flatten

-- sanity checks on concrete inputs
example :
    iter_transaction_lines_func "header text\n04/03/25 Monthly Service Fee -$1.00 -$19.91\nfoo bar" =
      ["04/03/25 Monthly Service Fee -$1.00 -$19.91"] := by decide

example :
    parse_transaction_line_func "04/03/25 Monthly Service Fee -$1.00 -$19.91" =
      some { posting_date := some "04/03/25", description := some "Monthly Service Fee",
             amount := some "-$1.00", balance := some "-$19.91" } := by decide

example : money_to_float_func "abc" = none := by decide

example : money_to_float_func "" = none := by decide

example : money_to_float_func "-inf" = some (PyFloat.inf true) := by decide

example : money_to_float_func "$1_0" = some (PyFloat.finite ((10 : Nat) : Rat)) := by decide

/-! ## Helper lemmas on the line parser -/

/-- A string matching the date pattern contains a slash, so it is not
all-digits. -/
lemma dateRe_not_digits {s : String} (h : dateRe s = true) : isDigits s = false := by
  unfold dateRe at h
  split at h
  next a b c d e f g h8 heq =>
    simp only [Bool.and_eq_true, decide_eq_true_eq] at h
    obtain ⟨⟨⟨⟨⟨⟨⟨_, _⟩, hc⟩, _⟩, _⟩, hf⟩, _⟩, _⟩ := h
    subst hc
    simp only [isDigits, heq, Bool.and_eq_false_iff, List.all_eq_false]
    exact Or.inr ⟨'/', by simp, by decide⟩
  next => exact absurd h (by simp)

/-- The exit-segment pass never touches `posting_date`. -/
lemma applyExit_posting (r : TransactionRecord) (rest : List String) :
    (applyExit r rest).posting_date = r.posting_date := by
  unfold applyExit
  rcases rest with _ | ⟨r0, rtail⟩
  · rfl
  · rcases rtail with _ | ⟨r1, rtail2⟩
    · rfl
    · rcases rtail2 with _ | ⟨r2, rtail3⟩ <;> dsimp only <;> split_ifs <;> rfl

/-- The middle-segment pass never touches `posting_date`. -/
lemma applyMiddle_posting (r : TransactionRecord) (middle : List String) :
    (applyMiddle r middle).posting_date = r.posting_date := by
  unfold applyMiddle
  rcases middle with _ | ⟨m0, mtail⟩
  · rfl
  · dsimp only
    split_ifs with hdate
    · rcases mtail with _ | ⟨m1, mtail2⟩
      · exact applyExit_posting _ _
      · dsimp only
        split_ifs <;> exact applyExit_posting _ _
    · exact applyExit_posting _ _

/-- The lane branch copies the last two tokens into amount and balance. -/
lemma parseLane_ab (ts : List String) :
    (parseLane ts).amount = some (ts.getD (ts.length - 2) "") ∧
    (parseLane ts).balance = some (ts.getD (ts.length - 1) "") := by
  simp only [parseLane]
  split <;> exact ⟨rfl, rfl⟩

/-- The double-date branch copies the last two tokens into amount and
balance. -/
lemma parseOld_ab (ts : List String) :
    (parseOld ts).amount = some (ts.getD (ts.length - 2) "") ∧
    (parseOld ts).balance = some (ts.getD (ts.length - 1) "") := by
  simp only [parseOld]
  split <;> exact ⟨rfl, rfl⟩

/-- The fee branch copies the last two tokens into amount and balance. -/
lemma parseFee_ab (ts : List String) :
    (parseFee ts).amount = some (ts.getD (ts.length - 2) "") ∧
    (parseFee ts).balance = some (ts.getD (ts.length - 1) "") :=
  ⟨rfl, rfl⟩

/-- The lane branch sets `posting_date` to the second token. -/
lemma parseLane_posting (ts : List String) :
    (parseLane ts).posting_date = some (ts.getD 1 "") := by
  simp only [parseLane]
  split
  · rfl
  · dsimp only
    rw [show ∀ r : TransactionRecord, ∀ a b : Option String,
          ({ r with amount := a, balance := b } : TransactionRecord).posting_date =
            r.posting_date from fun _ _ _ => rfl]
    rw [applyMiddle_posting]
    split_ifs <;> rfl

/-- The double-date branch sets `posting_date` to the first token. -/
lemma parseOld_posting (ts : List String) :
    (parseOld ts).posting_date = some (ts.getD 0 "") := by
  simp only [parseOld]
  split
  · rfl
  · dsimp only
    rw [show ∀ r : TransactionRecord, ∀ a b : Option String,
          ({ r with amount := a, balance := b } : TransactionRecord).posting_date =
            r.posting_date from fun _ _ _ => rfl]
    rw [applyMiddle_posting]

/-- The fee branch sets `posting_date` to the first token. -/
lemma parseFee_posting (ts : List String) :
    (parseFee ts).posting_date = some (ts.getD 0 "") := rfl

/-! ## Claim theorems: line-parser structure -/

/-- C1: whenever `parse_transaction_line_func` produces a record, its
`amount` field is verbatim the second-to-last whitespace token of the line
and its `balance` field is verbatim the last one, in every variant. -/
theorem amount_balance_last_two_tokens (line : String) (r : TransactionRecord)
    (h : parse_transaction_line_func line = some r) :
    r.amount = some ((pySplit line).getD ((pySplit line).length - 2) "") ∧
    r.balance = some ((pySplit line).getD ((pySplit line).length - 1) "") := by
  unfold parse_transaction_line_func parseTokens at h
  split at h
  · cases h
  · split at h
    · cases h; exact parseLane_ab _
    · split at h
      · cases h; exact parseOld_ab _
      · split at h
        · cases h; exact parseFee_ab _
        · cases h

/-- Witness for C1 at a concrete fee/payment line. -/
theorem amount_balance_last_two_tokens_witness :
    ({ posting_date := some "04/03/25", description := some "Monthly Service Fee",
       amount := some "-$1.00", balance := some "-$19.91" } : TransactionRecord).amount =
      some ((pySplit "04/03/25 Monthly Service Fee -$1.00 -$19.91").getD
        ((pySplit "04/03/25 Monthly Service Fee -$1.00 -$19.91").length - 2) "") ∧
    ({ posting_date := some "04/03/25", description := some "Monthly Service Fee",
       amount := some "-$1.00", balance := some "-$19.91" } : TransactionRecord).balance =
      some ((pySplit "04/03/25 Monthly Service Fee -$1.00 -$19.91").getD
        ((pySplit "04/03/25 Monthly Service Fee -$1.00 -$19.91").length - 1) "") :=
  amount_balance_last_two_tokens "04/03/25 Monthly Service Fee -$1.00 -$19.91" _ (by decide)

/-- C6: a digits-only token never matches the date pattern, so the
lane-variant condition and the double-date-variant condition of the
classifier are mutually exclusive on every token list. -/
theorem classifier_mutually_exclusive :
    (∀ s : String, isDigits s = true → dateRe s = false) ∧
    (∀ ts : List String,
      (isDigits (ts.getD 0 "") && dateRe (ts.getD 1 "")) = true →
      (dateRe (ts.getD 0 "") && dateRe (ts.getD 1 "")) = true → False) := by
  constructor
  · intro s hdig
    by_contra hne
    have hdate : dateRe s = true := by
      cases hd : dateRe s
      · exact absurd hd hne
      · rfl
    rw [dateRe_not_digits hdate] at hdig
    cases hdig
  · intro ts h1 h2
    simp only [Bool.and_eq_true] at h1 h2
    rw [dateRe_not_digits h2.1] at h1
    cases h1.1

/-- Witness for C6: the concrete lane-id token is digits-only and indeed
fails the date pattern. -/
theorem classifier_mutually_exclusive_witness : dateRe "31420710413" = false :=
  classifier_mutually_exclusive.1 "31420710413" (by decide)

/-- C2 counterexample: a double-date line with 5 tokens (so at most 6)
produces a record whose `tag_or_plate` is the third token, not null as the
claim states. -/
theorem double_date_short_tag_counterexample :
    ((pySplit "12/11/24 12/10/24 PAYMENT -$10.00 $5.00").length = 5 ∧
      dateRe ((pySplit "12/11/24 12/10/24 PAYMENT -$10.00 $5.00").getD 0 "") = true ∧
      dateRe ((pySplit "12/11/24 12/10/24 PAYMENT -$10.00 $5.00").getD 1 "") = true) ∧
    (parse_transaction_line_func "12/11/24 12/10/24 PAYMENT -$10.00 $5.00").map
        TransactionRecord.tag_or_plate = some (some "PAYMENT") := by
  decide

/-- C2 (amended): a double-date line with at least 4 and at most 6 tokens
produces a record with `description` the space-joined tokens strictly
between index 2 and the trailing amount/balance pair, amount and balance
the last two tokens, `tag_or_plate` the third token, and every other field
(lane_txn_id, agency, plaza, entry/exit fields, plan, vehicle_class)
null. -/
theorem double_date_short_amended (line : String)
    (h4 : 4 ≤ (pySplit line).length) (h6 : (pySplit line).length ≤ 6)
    (hd0 : dateRe ((pySplit line).getD 0 "") = true)
    (hd1 : dateRe ((pySplit line).getD 1 "") = true) :
    parse_transaction_line_func line =
      some { posting_date := some ((pySplit line).getD 0 ""),
             transaction_date := some ((pySplit line).getD 1 ""),
             tag_or_plate := some ((pySplit line).getD 2 ""),
             amount := some ((pySplit line).getD ((pySplit line).length - 2) ""),
             balance := some ((pySplit line).getD ((pySplit line).length - 1) ""),
             description := some (joinSpace (pySlice (pySplit line) 2 2)) } := by
  unfold parse_transaction_line_func parseTokens
  have hnd : isDigits ((pySplit line).getD 0 "") = false := dateRe_not_digits hd0
  rw [if_neg (by omega)]
  rw [if_neg (by rw [Bool.and_eq_true, hnd]; rintro ⟨hfalse, -⟩; cases hfalse)]
  rw [if_pos (by simp only [hd0, hd1, Bool.and_eq_true, decide_eq_true_eq]
                 exact ⟨trivial, by omega, trivial⟩)]
  simp only [parseOld]
  rw [if_pos h6]
  have h2 : 2 < (pySplit line).length := by omega
  simp [h2, empty_row]

/-- Witness for the amended C2 at a concrete 6-token double-date line. -/
theorem double_date_short_amended_witness :
    parse_transaction_line_func "12/01/24 12/02/24 FEE DISCOUNT -$2.00 $1.00" =
      some { posting_date := some "12/01/24", transaction_date := some "12/02/24",
             tag_or_plate := some "FEE", description := some "FEE DISCOUNT",
             amount := some "-$2.00", balance := some "$1.00" } :=
  double_date_short_amended "12/01/24 12/02/24 FEE DISCOUNT -$2.00 $1.00"
    (by decide) (by decide) (by decide) (by decide)

/-- C9: every produced record carries a non-null `posting_date` copied
verbatim from one token of the line (the second token when the first token
is all digits, i.e. the lane variant, else the first token), and that
token matches the date pattern. -/
theorem posting_date_verbatim (line : String) (r : TransactionRecord)
    (h : parse_transaction_line_func line = some r) :
    ∃ d, r.posting_date = some d ∧ dateRe d = true ∧
      ((isDigits ((pySplit line).getD 0 "") = true ∧ d = (pySplit line).getD 1 "") ∨
       (isDigits ((pySplit line).getD 0 "") = false ∧ d = (pySplit line).getD 0 "")) := by
  unfold parse_transaction_line_func parseTokens at h
  split at h
  · cases h
  · split at h
    next hc =>
      cases h
      simp only [Bool.and_eq_true] at hc
      exact ⟨_, parseLane_posting _, hc.2, Or.inl ⟨hc.1, rfl⟩⟩
    · split at h
      next hc =>
        cases h
        simp only [Bool.and_eq_true] at hc
        exact ⟨_, parseOld_posting _, hc.1, Or.inr ⟨dateRe_not_digits hc.1, rfl⟩⟩
      · split at h
        next hc =>
          cases h
          exact ⟨_, parseFee_posting _, hc, Or.inr ⟨dateRe_not_digits hc, rfl⟩⟩
        · cases h

/-- Witness for C9 at the concrete old-layout toll line. -/
theorem posting_date_verbatim_witness :
    ∃ d, (some "12/11/24" : Option String) = some d ∧ dateRe d = true ∧
      ((isDigits ((pySplit "12/11/24 12/10/24 00504419585 MTAB&T GWB STANDARD 31 $1.74 $16.74").getD 0 "") = true ∧
        d = (pySplit "12/11/24 12/10/24 00504419585 MTAB&T GWB STANDARD 31 $1.74 $16.74").getD 1 "") ∨
       (isDigits ((pySplit "12/11/24 12/10/24 00504419585 MTAB&T GWB STANDARD 31 $1.74 $16.74").getD 0 "") = false ∧
        d = (pySplit "12/11/24 12/10/24 00504419585 MTAB&T GWB STANDARD 31 $1.74 $16.74").getD 0 "")) :=
  posting_date_verbatim "12/11/24 12/10/24 00504419585 MTAB&T GWB STANDARD 31 $1.74 $16.74"
    { posting_date := some "12/11/24", transaction_date := some "12/10/24",
      tag_or_plate := some "00504419585", agency := some "MTAB&T", plaza := some "GWB",
      plan := some "STANDARD", vehicle_class := some "31",
      amount := some "$1.74", balance := some "$16.74" } (by decide)

/-! ## Helper lemmas on characters and list scans -/

lemma isDig_toNat {c : Char} (h : isDig c = true) : 48 ≤ c.toNat ∧ c.toNat ≤ 57 := by
  simpa [isDig] using h

lemma not_whitespace_of_toNat {c : Char} (h1 : 36 ≤ c.toNat) (h2 : c.toNat ≤ 57) :
    c.isWhitespace = false := by
  simp only [Char.isWhitespace, Bool.or_eq_false_iff, decide_eq_false_iff_not]
  refine ⟨⟨⟨?_, ?_⟩, ?_⟩, ?_⟩ <;> rintro rfl <;> revert h1 h2 <;> decide

lemma dropWhile_eq_self_of_head_false {α : Type} (p : α → Bool) (l : List α)
    (h : ∀ c ∈ l, p c = false) : l.dropWhile p = l := by
  cases l with
  | nil => rfl
  | cons a t => rw [List.dropWhile_cons, h a (by simp)]; simp

lemma takeWhile_eq_self_of_all {α : Type} (p : α → Bool) (l : List α)
    (h : ∀ c ∈ l, p c = true) : l.takeWhile p = l := by
  induction l with
  | nil => rfl
  | cons a t ih =>
    rw [List.takeWhile_cons, h a (by simp)]
    simp only [ite_true]
    rw [ih (fun c hc => h c (by simp [hc]))]

lemma dropWhile_eq_nil_of_all {α : Type} (p : α → Bool) (l : List α)
    (h : ∀ c ∈ l, p c = true) : l.dropWhile p = [] := by
  induction l with
  | nil => rfl
  | cons a t ih =>
    rw [List.dropWhile_cons, h a (by simp)]
    simp only [ite_true]
    exact ih (fun c hc => h c (by simp [hc]))

lemma takeWhile_append_stop {α : Type} (p : α → Bool) (ds : List α) (x : α) (f : List α)
    (hds : ∀ c ∈ ds, p c = true) (hx : p x = false) :
    (ds ++ x :: f).takeWhile p = ds ∧ (ds ++ x :: f).dropWhile p = x :: f := by
  induction ds with
  | nil => simp [List.takeWhile_cons, List.dropWhile_cons, hx]
  | cons a t ih =>
    have ha : p a = true := hds a (by simp)
    have iht := ih (fun c hc => hds c (by simp [hc]))
    simp only [List.cons_append, List.takeWhile_cons, List.dropWhile_cons, ha, ite_true]
    exact ⟨by rw [iht.1], iht.2⟩

lemma dropWhile_head_false {α : Type} (p : α → Bool) (l : List α) (a : α) (t : List α)
    (h : l.dropWhile p = a :: t) : p a = false := by
  induction l with
  | nil => cases h
  | cons b u ih =>
    rw [List.dropWhile_cons] at h
    by_cases hb : p b = true
    · rw [hb] at h; simp only [ite_true] at h; exact ih h
    · rw [eq_false_of_ne_true hb] at h
      simp only [Bool.false_eq_true, ite_false] at h
      cases h
      exact eq_false_of_ne_true hb

lemma pyStripWs_eq_self (cs : List Char) (h : ∀ c ∈ cs, c.isWhitespace = false) :
    pyStripWs cs = cs := by
  unfold pyStripWs
  rw [dropWhile_eq_self_of_head_false _ _ h]
  rw [dropWhile_eq_self_of_head_false _ _ (fun c hc => h c (by simpa using hc))]
  exact List.reverse_reverse cs

lemma pyStripWs_subset {cs : List Char} {c : Char} (h : c ∈ pyStripWs cs) : c ∈ cs := by
  unfold pyStripWs at h
  rw [List.mem_reverse] at h
  have h2 := (List.dropWhile_sublist _).subset h
  rw [List.mem_reverse] at h2
  exact (List.dropWhile_sublist _).subset h2

/-! ## Helper lemmas on the float parser -/

lemma runValAux_digits (ds : List Char) (v n : Nat) (h : ∀ c ∈ ds, isDig c = true) :
    runValAux ds v n =
      some (ds.foldl (fun a c => a * 10 + digitVal c) v, n + ds.length) := by
  induction ds generalizing v n with
  | nil => simp [runValAux]
  | cons c t ih =>
    have hc : isDig c = true := h c (by simp)
    rw [runValAux.eq_def]
    dsimp only
    rw [hc]
    simp only [ite_true]
    rw [ih _ _ (fun x hx => h x (by simp [hx]))]
    simp only [List.foldl_cons, List.length_cons, Option.some.injEq, Prod.mk.injEq]
    refine ⟨by simp, by omega⟩

lemma runVal?_digits (ds : List Char) (hne : ds ≠ []) (h : ∀ c ∈ ds, isDig c = true) :
    runVal? ds = some (natOfDigits ds, ds.length) := by
  cases ds with
  | nil => exact absurd rfl hne
  | cons c t =>
    have hc : isDig c = true := h c (by simp)
    rw [runVal?, hc]
    simp only [ite_true]
    rw [runValAux_digits t (digitVal c) 1 (fun x hx => h x (by simp [hx]))]
    simp only [natOfDigits, List.foldl_cons, List.length_cons, Option.some.injEq, Prod.mk.injEq]
    constructor
    · norm_num
    · omega

lemma isDig_ne_dot {c : Char} (h : isDig c = true) : (!(c == '.')) = true := by
  have hb := isDig_toNat h
  simp only [Bool.not_eq_true', beq_eq_false_iff_ne, ne_eq]
  rintro rfl
  revert hb
  decide

lemma parseMantissa_dec (ds f : List Char)
    (hds : ∀ c ∈ ds, isDig c = true) (hf : ∀ c ∈ f, isDig c = true)
    (hdsne : ds ≠ []) (hfne : f ≠ []) :
    parseMantissa (ds ++ '.' :: f) =
      some ((natOfDigits ds : Rat) + (natOfDigits f : Rat) / 10 ^ f.length) := by
  have hsplit := takeWhile_append_stop (fun c => !(c == '.')) ds '.' f
    (fun c hc => isDig_ne_dot (hds c hc)) (by decide)
  rw [parseMantissa, hsplit.2, hsplit.1]
  simp only [runVal?_digits ds hdsne hds, runVal?_digits f hfne hf]

lemma parseMantissa_int (ds : List Char) (hds : ∀ c ∈ ds, isDig c = true) (hne : ds ≠ []) :
    parseMantissa ds = some ((natOfDigits ds : Rat)) := by
  rw [parseMantissa,
      dropWhile_eq_nil_of_all _ _ (fun c hc => isDig_ne_dot (hds c hc)),
      takeWhile_eq_self_of_all _ _ (fun c hc => isDig_ne_dot (hds c hc)),
      runVal?_digits ds hne hds]
  rfl

lemma parseMantissa_dotEnd (ds : List Char) (hds : ∀ c ∈ ds, isDig c = true) (hne : ds ≠ []) :
    parseMantissa (ds ++ ['.']) = some ((natOfDigits ds : Rat)) := by
  have hsplit := takeWhile_append_stop (fun c => !(c == '.')) ds '.' []
    (fun c hc => isDig_ne_dot (hds c hc)) (by decide)
  rw [parseMantissa, hsplit.2, hsplit.1, runVal?_digits ds hne hds]
  rfl

lemma parseMantissa_dotStart (f : List Char) (hf : ∀ c ∈ f, isDig c = true) (hne : f ≠ []) :
    parseMantissa ('.' :: f) = some ((natOfDigits f : Rat) / 10 ^ f.length) := by
  have hsplit := takeWhile_append_stop (fun c => !(c == '.')) [] '.' f
    (by simp) (by decide)
  rw [parseMantissa]
  rw [show ('.' :: f : List Char) = [] ++ '.' :: f from rfl, hsplit.2, hsplit.1]
  simp [show runVal? ([] : List Char) = none from rfl, runVal?_digits f hne hf]

lemma lowerChar_low {c : Char} (h : c.toNat ≤ 57) : lowerChar c = c := by
  rw [lowerChar, if_neg]
  simp only [Bool.and_eq_true, decide_eq_true_eq, not_and]
  intro h65
  omega

lemma not_isEe_of_toNat {c : Char} (h : c.toNat ≤ 57) : (!(isEe c)) = true := by
  simp only [isEe, Bool.not_eq_true', Bool.or_eq_false_iff, beq_eq_false_iff_ne, ne_eq]
  constructor <;> rintro rfl <;> revert h <;> decide

lemma parseSignedBody_decimal (neg : Bool) (c : Char) (rest : List Char)
    (_h46 : 46 ≤ c.toNat) (h57 : c.toNat ≤ 57) :
    parseSignedBody neg (c :: rest) =
      (parseNumeric (c :: rest)).map (fun q => PyFloat.finite (if neg then -q else q)) := by
  have hlc : lowerChar c = c := lowerChar_low h57
  have hne : ∀ d : Char, 65 ≤ d.toNat → c ≠ d := by
    intro d hd heq
    rw [heq] at h57
    omega
  have h1 : ¬(lowerList (c :: rest) = ['i', 'n', 'f'] ∨
      lowerList (c :: rest) = ['i', 'n', 'f', 'i', 'n', 'i', 't', 'y']) := by
    rintro (hx | hx) <;>
      (rw [lowerList, List.map_cons, hlc] at hx
       injection hx with hh ht
       exact hne _ (by decide) hh)
  have h2 : ¬(lowerList (c :: rest) = ['n', 'a', 'n']) := by
    intro hx
    rw [lowerList, List.map_cons, hlc] at hx
    injection hx with hh ht
    exact hne _ (by decide) hh
  rw [parseSignedBody, if_neg h1, if_neg h2]

lemma parseSigned_decimal (cs : List Char) (hne : cs ≠ [])
    (hall : ∀ c ∈ cs, 46 ≤ c.toNat ∧ c.toNat ≤ 57) :
    parseSigned cs = (parseNumeric cs).map (fun q => PyFloat.finite q) := by
  rcases cs with _ | ⟨c0, rest⟩
  · exact absurd rfl hne
  · have hc := hall c0 (by simp)
    rw [parseSigned.eq_def]
    split
    next r heq =>
      exfalso
      injection heq with hh ht
      rw [hh] at hc
      revert hc
      decide
    next r heq =>
      exfalso
      injection heq with hh ht
      rw [hh] at hc
      revert hc
      decide
    next =>
      rw [parseSignedBody_decimal false c0 rest hc.1 hc.2]
      have hfun : (fun q : Rat => PyFloat.finite (if false then -q else q)) =
          fun q : Rat => PyFloat.finite q := by
        funext q
        simp
      rw [hfun]

lemma parseNumeric_eq_mantissa (cs : List Char) (h : ∀ c ∈ cs, (!(isEe c)) = true) :
    parseNumeric cs = parseMantissa cs := by
  rw [parseNumeric, dropWhile_eq_nil_of_all _ _ h]

lemma parseMantissa_nonneg {cs : List Char} {q : Rat} (h : parseMantissa cs = some q) :
    0 ≤ q := by
  rw [parseMantissa] at h
  split at h
  · obtain ⟨p, hp, rfl⟩ := Option.map_eq_some'.mp h
    positivity
  · split at h
    · injection h with h'
      rw [← h']
      positivity
    · split at h
      · injection h with h'
        rw [← h']
        positivity
      · cases h
    · split at h
      · injection h with h'
        rw [← h']
        positivity
      · cases h
    · cases h

lemma parseNumeric_nonneg {cs : List Char} {q : Rat} (h : parseNumeric cs = some q) :
    0 ≤ q := by
  rw [parseNumeric] at h
  split at h
  · exact parseMantissa_nonneg h
  · split at h
    next m e hm he =>
      injection h with h'
      rw [← h']
      have h1 := parseMantissa_nonneg hm
      positivity
    next => cases h

lemma parseSignedBody_false_isNeg {body : List Char} {w : PyFloat}
    (h : parseSignedBody false body = some w) : w.isNeg = false := by
  rw [parseSignedBody] at h
  split at h
  · injection h with h'
    rw [← h']
    rfl
  · split at h
    · injection h with h'
      rw [← h']
      rfl
    · obtain ⟨q, hq, rfl⟩ := Option.map_eq_some'.mp h
      have hq0 := parseNumeric_nonneg hq
      simp [PyFloat.isNeg, not_lt, hq0]

lemma parseSigned_no_dash {cs : List Char} {w : PyFloat} (hnd : '-' ∉ cs)
    (h : parseSigned cs = some w) : w.isNeg = false := by
  rw [parseSigned.eq_def] at h
  split at h
  · exact parseSignedBody_false_isNeg h
  · exact absurd hnd (by simp)
  · exact parseSignedBody_false_isNeg h

lemma pyNeg_isNeg_of_nonneg {w : PyFloat} (h : w.isNeg = false) :
    (pyNeg w).isNeg = w.nonzeroNum := by
  cases w with
  | finite q =>
    simp only [PyFloat.isNeg, decide_eq_false_iff_not, not_lt] at h
    simp only [pyNeg, PyFloat.isNeg, PyFloat.nonzeroNum]
    rcases eq_or_lt_of_le h with h0 | h0
    · rw [← h0]
      simp
    · rw [decide_eq_true (neg_lt_zero.mpr h0), decide_eq_true (ne_of_gt h0)]
  | inf b =>
    simp only [PyFloat.isNeg] at h
    rw [h]
    rfl
  | nan => rfl

lemma pyNeg_nonzeroNum (w : PyFloat) : (pyNeg w).nonzeroNum = w.nonzeroNum := by
  cases w <;> simp [pyNeg, PyFloat.nonzeroNum, neg_eq_zero]

lemma moneyStrip_no_dash (cs : List Char) : '-' ∉ moneyStrip cs := by
  intro h
  have hp := (List.mem_filter.mp h).2
  exact absurd hp (by decide)

/-- Exact evaluation of `money_to_float` on a token whose stripped
remainder is a decimal `ds . f` with non-empty digit runs on both sides. -/
lemma money_eval_decimal (s : String) (ds f : List Char)
    (hne : s.data ≠ [])
    (hstrip : moneyStrip (pyStripWs s.data) = ds ++ '.' :: f)
    (hds : ∀ c ∈ ds, isDig c = true) (hf : ∀ c ∈ f, isDig c = true)
    (hdsne : ds ≠ []) (hfne : f ≠ []) :
    money_to_float_func s =
      some (if startsWithDash (pyStripWs s.data) then
              PyFloat.finite (-((natOfDigits ds : Rat) + (natOfDigits f : Rat) / 10 ^ f.length))
            else
              PyFloat.finite ((natOfDigits ds : Rat) + (natOfDigits f : Rat) / 10 ^ f.length)) := by
  have hchars : ∀ c ∈ ds ++ '.' :: f, 46 ≤ c.toNat ∧ c.toNat ≤ 57 := by
    intro c hc
    rcases List.mem_append.mp hc with hc | hc
    · have := isDig_toNat (hds c hc)
      omega
    · rcases List.mem_cons.mp hc with rfl | hc
      · exact ⟨by decide, by decide⟩
      · have := isDig_toNat (hf c hc)
        omega
  have hnws : ∀ c ∈ ds ++ '.' :: f, c.isWhitespace = false := fun c hc =>
    not_whitespace_of_toNat (by have := hchars c hc; omega) (hchars c hc).2
  have hcne : (ds ++ '.' :: f : List Char) ≠ [] := by
    rcases ds with _ | _ <;> simp
  simp only [money_to_float_func]
  rw [if_neg hne, hstrip, pyFloatParse, pyStripWs_eq_self _ hnws,
      parseSigned_decimal _ hcne hchars,
      parseNumeric_eq_mantissa _ (fun c hc => not_isEe_of_toNat (hchars c hc).2),
      parseMantissa_dec ds f hds hf hdsne hfne]
  cases hsd : startsWithDash (pyStripWs s.data) <;> simp [pyNeg]

lemma mem_takeWhile_pred {α : Type} (p : α → Bool) (l : List α) (c : α)
    (h : c ∈ l.takeWhile p) : p c = true ∧ c ∈ l := by
  induction l with
  | nil => cases h
  | cons a t ih =>
    rw [List.takeWhile_cons] at h
    by_cases ha : p a = true
    · rw [ha] at h
      simp only [ite_true] at h
      rcases List.mem_cons.mp h with rfl | h
      · exact ⟨ha, by simp⟩
      · have := ih h
        exact ⟨this.1, by simp [this.2]⟩
    · rw [eq_false_of_ne_true ha] at h
      simp at h

/-- A plain decimal numeral (per the specification's wording) is accepted
by the mantissa parser. -/
lemma parseMantissa_of_specValid (cs : List Char) (h : specValidDecimal cs = true) :
    ∃ q, parseMantissa cs = some q := by
  rw [specValidDecimal] at h
  simp only [Bool.and_eq_true, List.all_eq_true, List.any_eq_true, decide_eq_true_eq,
    Bool.or_eq_true, beq_iff_eq] at h
  obtain ⟨⟨hall, hcount⟩, c0, hc0mem, hc0⟩ := h
  have hc0ne : c0 ≠ '.' := by
    have := isDig_toNat hc0
    rintro rfl
    revert this
    decide
  have hsplitcs := List.takeWhile_append_dropWhile (fun c => !(c == '.')) cs
  have hds_digit : ∀ c ∈ cs.takeWhile (fun c => !(c == '.')), isDig c = true := by
    intro c hc
    obtain ⟨hp, hmem⟩ := mem_takeWhile_pred _ _ _ hc
    rcases hall c hmem with hd | hdot
    · exact hd
    · rw [hdot] at hp
      cases hp
  cases hrest : cs.dropWhile (fun c => !(c == '.')) with
  | nil =>
    have hcs : cs.takeWhile (fun c => !(c == '.')) = cs := by
      conv_rhs => rw [← hsplitcs, hrest, List.append_nil]
    refine ⟨_, parseMantissa_int cs (by rw [← hcs]; exact hds_digit) ?_⟩
    exact List.ne_nil_of_mem hc0mem
  | cons r0 f =>
    have hr0 : (!(r0 == '.')) = false :=
      dropWhile_head_false (fun c => !(c == '.')) cs r0 f hrest
    have hr0' : r0 = '.' := by simpa using hr0
    subst hr0'
    have hcs2 : cs = cs.takeWhile (fun c => !(c == '.')) ++ '.' :: f := by
      conv_lhs => rw [← hsplitcs, hrest]
    have hfcount : f.count '.' = 0 := by
      have hc := congrArg (List.count '.') hcs2
      rw [List.count_append, List.count_cons_self] at hc
      have htw0 : (cs.takeWhile (fun c => !(c == '.'))).count '.' = 0 := by
        rw [List.count_eq_zero]
        intro hdot
        have := hds_digit '.' hdot
        exact absurd this (by decide)
      omega
    have hf_digit : ∀ c ∈ f, isDig c = true := by
      intro c hcf
      have hmemcs : c ∈ cs := by
        rw [hcs2]
        simp [hcf]
      rcases hall c hmemcs with hd | hdot
      · exact hd
      · subst hdot
        rw [List.count_eq_zero] at hfcount
        exact absurd hcf hfcount
    by_cases htw : cs.takeWhile (fun c => !(c == '.')) = []
    · have hcs3 : cs = '.' :: f := by rw [hcs2, htw]; rfl
      have hfne : f ≠ [] := by
        rw [hcs3] at hc0mem
        rcases List.mem_cons.mp hc0mem with h0 | h0
        · exact absurd h0 hc0ne
        · exact List.ne_nil_of_mem h0
      exact ⟨(natOfDigits f : Rat) / 10 ^ f.length, by
        rw [hcs3]; exact parseMantissa_dotStart f hf_digit hfne⟩
    · cases hf : f with
      | nil =>
        have hdone := parseMantissa_dotEnd _ hds_digit htw
        rw [show cs.takeWhile (fun c => !(c == '.')) ++ ['.'] = cs from by
              conv_rhs => rw [hcs2, hf]] at hdone
        exact ⟨_, hdone⟩
      | cons f0 ftail =>
        have hdone := parseMantissa_dec (cs.takeWhile (fun c => !(c == '.'))) (f0 :: ftail)
          hds_digit (fun c hc => hf_digit c (by rw [hf]; exact hc)) htw (by simp)
        rw [show cs.takeWhile (fun c => !(c == '.')) ++ '.' :: (f0 :: ftail) = cs from by
              conv_rhs => rw [hcs2, hf]] at hdone
        exact ⟨_, hdone⟩

/-- If the stripped token is a plain decimal numeral, `money_to_float`
returns a value. -/
lemma money_some_of_specValid (s : String)
    (hv : specValidDecimal (moneyStripped s) = true) :
    ∃ v, money_to_float_func s = some v := by
  have hv' := hv
  rw [specValidDecimal] at hv'
  simp only [Bool.and_eq_true, List.all_eq_true, List.any_eq_true, decide_eq_true_eq,
    Bool.or_eq_true, beq_iff_eq] at hv'
  obtain ⟨⟨hall, hcount⟩, c0, hc0mem, hc0⟩ := hv'
  have hne : s.data ≠ [] := by
    intro h0
    rw [moneyStripped, h0] at hc0mem
    simp [pyStripWs, moneyStrip] at hc0mem
  have hchars : ∀ c ∈ moneyStripped s, 46 ≤ c.toNat ∧ c.toNat ≤ 57 := by
    intro c hc
    rcases hall c hc with h | h
    · have := isDig_toNat h
      omega
    · subst h
      exact ⟨by decide, by decide⟩
  obtain ⟨q, hq⟩ := parseMantissa_of_specValid (moneyStripped s) hv
  have hparse : pyFloatParse (moneyStrip (pyStripWs s.data)) = some (PyFloat.finite q) := by
    rw [show moneyStrip (pyStripWs s.data) = moneyStripped s from rfl,
        pyFloatParse,
        pyStripWs_eq_self _ (fun c hc =>
          not_whitespace_of_toNat (by have := hchars c hc; omega) (hchars c hc).2),
        parseSigned_decimal _ (List.ne_nil_of_mem hc0mem) hchars,
        parseNumeric_eq_mantissa _ (fun c hc => not_isEe_of_toNat (hchars c hc).2),
        hq]
    rfl
  refine ⟨if startsWithDash (pyStripWs s.data) then pyNeg (PyFloat.finite q)
          else PyFloat.finite q, ?_⟩
  simp only [money_to_float_func]
  rw [if_neg hne, hparse]

/-! ## Claim theorems: line selection and batching -/

/-- The acceptance condition of the Line Selector as the specification
states it: a stripped non-empty line with at least 4 whitespace tokens
whose first token is all digits with the second a date, or whose first
token is a date. -/
def selCond (line : String) : Bool :=
  !(line == "") && decide (4 ≤ (pySplit line).length) &&
    (isDigits ((pySplit line).getD 0 "") && dateRe ((pySplit line).getD 1 "") ||
     dateRe ((pySplit line).getD 0 ""))

/-- A filterMap whose body yields `g x` exactly when `p (g x)` holds is a
map followed by a filter. -/
lemma filterMap_eq_filter_map {α β : Type} (g : α → β) (p : β → Bool) (f : α → Option β)
    (hf : ∀ x, f x = if p (g x) = true then some (g x) else none) (l : List α) :
    l.filterMap f = (l.map g).filter p := by
  induction l with
  | nil => rfl
  | cons a l ih =>
    rw [List.filterMap_cons, List.map_cons, List.filter_cons, hf a]
    by_cases hp : p (g a) = true
    · rw [if_pos hp, if_pos hp, ih]
    · rw [if_neg hp, if_neg hp, ih]

/-- Per-line behaviour of the selection loop body. -/
lemma iterBody_eq (ln : String) :
    iterBody ln = if selCond (pyTrim ln) = true then some (pyTrim ln) else none := by
  simp only [iterBody, selCond]
  by_cases h0 : pyTrim ln = ""
  · simp [h0]
  · by_cases h4 : (pySplit (pyTrim ln)).length < 4
    · have hn4 : ¬(4 ≤ (pySplit (pyTrim ln)).length) := by omega
      simp [h0, h4, hn4]
    · have h4le : 4 ≤ (pySplit (pyTrim ln)).length := by omega
      have h1 : 1 < (pySplit (pyTrim ln)).length := by omega
      rcases Bool.dichotomy (isDigits ((pySplit (pyTrim ln)).getD 0 "")) with hA | hA <;>
        rcases Bool.dichotomy (dateRe ((pySplit (pyTrim ln)).getD 1 "")) with hB | hB <;>
        rcases Bool.dichotomy (dateRe ((pySplit (pyTrim ln)).getD 0 "")) with hC | hC <;>
        simp only [hA, hB, hC] <;> simp [h0, h4, h4le, h1]

/-- C5: the Line Selector yields exactly the stripped non-empty lines, in
original order, that have at least 4 whitespace tokens and whose leading
tokens are `(digits, date)` or `(date, ...)`; in particular a line with
fewer than 4 tokens yields nothing. -/
theorem line_selector_filter (text : String) :
    iter_transaction_lines_func text = ((pySplitLines text).map pyTrim).filter selCond := by
  unfold iter_transaction_lines_func
  exact filterMap_eq_filter_map pyTrim selCond iterBody iterBody_eq _

/-- C8: the combined output of `parse_many_func` is the concatenation, in
input order, of the per-document outputs of `parse_pdf_func`; the empty
document list yields the empty output; and each document's records are, in
order, the parsed survivors of the Line Selector's lines. -/
theorem batch_concat_order :
    (∀ docs : List (List String),
      parse_many_func docs = (docs.map parse_pdf_func).flatten) ∧
    parse_many_func [] = [] ∧
    (∀ pages : List String,
      (parse_pdf_func pages).map OutRow.record =
        pages.flatMap
          (fun t => (iter_transaction_lines_func t).filterMap parse_transaction_line_func)) := by
  refine ⟨?_, rfl, ?_⟩
  · intro docs
    unfold parse_many_func
    cases docs with
    | nil => rfl
    | cons d ds => rfl
  · intro pages
    simp only [parse_pdf_func]
    rw [List.map_map]
    have hcomp : (OutRow.record ∘ fun r =>
        (⟨r, moneyOptCol r.amount, moneyOptCol r.balance⟩ : OutRow)) = id := rfl
    rw [hcomp, List.map_id]

/-! ## Claim theorems: the Money Normalizer -/

/-- C3 counterexample: `"inf"` is not reducible to a plain decimal numeral
after stripping, yet `money_to_float` returns a (non-null) value for it,
because Python `float()` also accepts the `inf`/`nan` spellings (and
likewise exponent notation such as `$1e2`). -/
theorem money_null_iff_counterexample :
    money_to_float_func "inf" = some (PyFloat.inf false) ∧
    specValidDecimal (moneyStripped "inf") = false := by
  decide

/-- C3 (amended): `money_to_float_func` returns a value for every input
whose stripped remainder is a plain decimal numeral, and returns null only
if the stripped remainder is not a plain decimal numeral; the converse of
the null direction fails because the float grammar also accepts exponent
notation, `inf`/`nan`, underscore separators and signs. -/
theorem money_null_amended (s : String) :
    (specValidDecimal (moneyStripped s) = true → ∃ v, money_to_float_func s = some v) ∧
    (money_to_float_func s = none → specValidDecimal (moneyStripped s) = false) := by
  constructor
  · exact money_some_of_specValid s
  · intro hnone
    cases hsv : specValidDecimal (moneyStripped s)
    · rfl
    · obtain ⟨v, hv⟩ := money_some_of_specValid s hsv
      rw [hv] at hnone
      cases hnone

/-- Witness for the amended C3 at the concrete token `$5.00`. -/
theorem money_null_amended_witness :
    ∃ v, money_to_float_func "$5.00" = some v :=
  (money_null_amended "$5.00").1 (by decide)

/-- C10 counterexample: `-$0.00` starts with `-` after stripping, but the
returned value is zero, which is not negative. -/
theorem money_sign_counterexample :
    money_to_float_func "-$0.00" = some (PyFloat.finite 0) ∧
    startsWithDash (pyStripWs "-$0.00".data) = true ∧
    (PyFloat.finite 0).isNeg = false := by
  refine ⟨?_, by decide, by simp [PyFloat.isNeg]⟩
  have h := money_eval_decimal "-$0.00" ['0'] ['0', '0'] (by decide) (by decide)
    (by decide) (by decide) (by decide) (by decide)
  rw [h, show startsWithDash (pyStripWs "-$0.00".data) = true from by decide,
      show natOfDigits ['0'] = 0 from by decide,
      show natOfDigits ['0', '0'] = 0 from by decide]
  norm_num

/-- C10 (amended): the result of `money_to_float_func` is negative exactly
when the stripped token begins with `-` and the parsed magnitude is a
nonzero number; a `-` occurring elsewhere is removed without affecting the
sign, so `$-6.94` yields the positive magnitude 6.94. -/
theorem money_sign_amended :
    (∀ (s : String) (v : PyFloat), money_to_float_func s = some v →
      v.isNeg = (startsWithDash (pyStripWs s.data) && v.nonzeroNum)) ∧
    money_to_float_func "$-6.94" = some (PyFloat.finite (347 / 50)) := by
  constructor
  · intro s v h
    simp only [money_to_float_func] at h
    split at h
    · cases h
    · rcases hp : pyFloatParse (moneyStrip (pyStripWs s.data)) with _ | a
      · rw [hp] at h
        cases h
      · rw [hp] at h
        injection h with h'
        have hnd : '-' ∉ pyStripWs (moneyStrip (pyStripWs s.data)) :=
          fun hm => moneyStrip_no_dash _ (pyStripWs_subset hm)
        rw [pyFloatParse] at hp
        have ha : a.isNeg = false := parseSigned_no_dash hnd hp
        cases hsd : startsWithDash (pyStripWs s.data)
        · rw [hsd] at h'
          simp only [Bool.false_eq_true, if_false] at h'
          rw [← h', ha]
          simp
        · rw [hsd] at h'
          simp only [if_true] at h'
          rw [← h']
          rw [pyNeg_isNeg_of_nonneg ha, ← pyNeg_nonzeroNum]
          simp
  · have h := money_eval_decimal "$-6.94" ['6'] ['9', '4'] (by decide) (by decide)
      (by decide) (by decide) (by decide) (by decide)
    rw [h, show startsWithDash (pyStripWs "$-6.94".data) = false from by decide,
        show natOfDigits ['6'] = 6 from by decide,
        show natOfDigits ['9', '4'] = 94 from by decide]
    norm_num

/-- Witness for the amended C10 at the concrete token `-inf`. -/
theorem money_sign_amended_witness :
    (PyFloat.inf true).isNeg =
      (startsWithDash (pyStripWs "-inf".data) && (PyFloat.inf true).nonzeroNum) :=
  money_sign_amended.1 "-inf" (PyFloat.inf true) (by decide)

/-- C7: on every money token of the form `$D.DD` or `-$D.DD`, where the
integer part may carry comma thousands separators, `money_to_float_func`
returns exactly the signed decimal magnitude written in the token. -/
theorem money_exact_magnitude (neg : Bool) (ip : List Char) (d1 d2 : Char)
    (hip : ∀ c ∈ ip, isDig c = true ∨ c = ',')
    (hipne : ip.filter isDig ≠ []) (hd1 : isDig d1 = true) (hd2 : isDig d2 = true) :
    money_to_float_func
        (String.mk ((if neg then ['-'] else []) ++ '$' :: (ip ++ '.' :: [d1, d2]))) =
      some (PyFloat.finite ((if neg then (-1 : Rat) else 1) *
        ((natOfDigits (ip.filter isDig) : Rat) +
          ((10 * digitVal d1 + digitVal d2 : Nat) : Rat) / 100))) := by
  have hkeep : ∀ c : Char, isDig c = true →
      (!(c == '$' || c == ',' || c == '-')) = true := by
    intro c hc
    have hb := isDig_toNat hc
    simp only [Bool.not_eq_true', Bool.or_eq_false_iff, beq_eq_false_iff_ne, ne_eq]
    refine ⟨⟨?_, ?_⟩, ?_⟩ <;> rintro rfl <;> revert hb <;> decide
  have hbounds : ∀ c ∈ (if neg then ['-'] else []) ++ '$' :: (ip ++ '.' :: [d1, d2]),
      36 ≤ c.toNat ∧ c.toNat ≤ 57 := by
    intro c hc
    rcases List.mem_append.mp hc with hs | hs
    · cases neg
      · simp at hs
      · simp only [if_true, List.mem_singleton] at hs
        subst hs
        exact ⟨by decide, by decide⟩
    · rcases List.mem_cons.mp hs with rfl | hs
      · exact ⟨by decide, by decide⟩
      · rcases List.mem_append.mp hs with hs | hs
        · rcases hip c hs with h | h
          · have := isDig_toNat h
            omega
          · subst h
            exact ⟨by decide, by decide⟩
        · rcases List.mem_cons.mp hs with rfl | hs
          · exact ⟨by decide, by decide⟩
          · rcases List.mem_cons.mp hs with rfl | hs
            · have := isDig_toNat hd1
              omega
            · rcases List.mem_cons.mp hs with rfl | hs
              · have := isDig_toNat hd2
                omega
              · cases hs
  have hnws : ∀ c ∈ (if neg then ['-'] else []) ++ '$' :: (ip ++ '.' :: [d1, d2]),
      c.isWhitespace = false := fun c hc =>
    not_whitespace_of_toNat (hbounds c hc).1 (hbounds c hc).2
  have hstripws : pyStripWs ((if neg then ['-'] else []) ++ '$' :: (ip ++ '.' :: [d1, d2])) =
      (if neg then ['-'] else []) ++ '$' :: (ip ++ '.' :: [d1, d2]) :=
    pyStripWs_eq_self _ hnws
  have hfip : ip.filter (fun c => !(c == '$' || c == ',' || c == '-')) = ip.filter isDig := by
    apply List.filter_congr
    intro c hc
    rcases hip c hc with h | h
    · rw [h, hkeep c h]
    · subst h
      decide
  have hms : moneyStrip ((if neg then ['-'] else []) ++ '$' :: (ip ++ '.' :: [d1, d2])) =
      ip.filter isDig ++ '.' :: [d1, d2] := by
    rw [moneyStrip, List.filter_append]
    have h1 : (if neg then ['-'] else []).filter
        (fun c => !(c == '$' || c == ',' || c == '-')) = [] := by
      cases neg <;> rfl
    rw [h1, List.nil_append, List.filter_cons, List.filter_append, hfip, List.filter_cons]
    simp only [show (!(('$' : Char) == '$' || ('$' : Char) == ',' || ('$' : Char) == '-')) = false
        from by decide,
      show (!(('.' : Char) == '$' || ('.' : Char) == ',' || ('.' : Char) == '-')) = true
        from by decide, if_false, if_true]
    rw [List.filter_cons, List.filter_cons, hkeep d1 hd1, hkeep d2 hd2]
    rfl
  have hdata : (String.mk ((if neg then ['-'] else []) ++ '$' :: (ip ++ '.' :: [d1, d2]))).data =
      (if neg then ['-'] else []) ++ '$' :: (ip ++ '.' :: [d1, d2]) := rfl
  have h := money_eval_decimal
    (String.mk ((if neg then ['-'] else []) ++ '$' :: (ip ++ '.' :: [d1, d2])))
    (ip.filter isDig) [d1, d2]
    (by rw [hdata]; cases neg <;> simp)
    (by rw [hdata, hstripws]; exact hms)
    (fun c hc => (List.mem_filter.mp hc).2)
    (by intro c hc
        rcases List.mem_cons.mp hc with rfl | hc
        · exact hd1
        · rcases List.mem_cons.mp hc with rfl | hc
          · exact hd2
          · cases hc)
    hipne (by simp)
  rw [h, hdata, hstripws]
  have hB : natOfDigits [d1, d2] = 10 * digitVal d1 + digitVal d2 := by
    simp only [natOfDigits, List.foldl_cons, List.foldl_nil]
    omega
  have hsd : startsWithDash ((if neg then ['-'] else []) ++ '$' :: (ip ++ '.' :: [d1, d2])) =
      neg := by
    cases neg <;> rfl
  rw [hsd, hB]
  cases neg
  · norm_num
  · norm_num

/-- Witness for C7 at the concrete token `-$1,234.50`. -/
theorem money_exact_magnitude_witness :
    money_to_float_func
        (String.mk ((if true then ['-'] else []) ++
          '$' :: (['1', ',', '2', '3', '4'] ++ '.' :: ['5', '0']))) =
      some (PyFloat.finite ((if true then (-1 : Rat) else 1) *
        ((natOfDigits (['1', ',', '2', '3', '4'].filter isDig) : Rat) +
          ((10 * digitVal '5' + digitVal '0' : Nat) : Rat) / 100))) :=
  money_exact_magnitude true ['1', ',', '2', '3', '4'] '5' '0'
    (by decide) (by decide) (by decide) (by decide)

/-- C4: the concrete new-layout toll line from the specification parses to
exactly the stated record, and the derived numeric amount is -6.94. -/
theorem lane_example_line :
    parse_transaction_line_func
        "31420710413 04/06/25 00504721314 MTAB&T BWB 04/04/25 04:27 STANDARD 31 -$6.94 $73.15" =
      some { lane_txn_id := some "31420710413", posting_date := some "04/06/25",
             tag_or_plate := some "00504721314", agency := some "MTAB&T",
             plaza := some "BWB", entry_date := some "04/04/25", entry_time := some "04:27",
             plan := some "STANDARD", vehicle_class := some "31",
             amount := some "-$6.94", balance := some "$73.15" } ∧
    money_to_float_func "-$6.94" = some (PyFloat.finite (-(347 / 50))) := by
  constructor
  · decide
  · have h := money_eval_decimal "-$6.94" ['6'] ['9', '4'] (by decide) (by decide)
      (by decide) (by decide) (by decide) (by decide)
    rw [h, show startsWithDash (pyStripWs "-$6.94".data) = true from by decide,
        show natOfDigits ['6'] = 6 from by decide,
        show natOfDigits ['9', '4'] = 94 from by decide]
    norm_num
